import Mathlib

/-!
# Verification of the termdash container layout engine and SegmentDisplay widget

Shallow embedding of the repository's container layout/draw engine and of the
`segmentdisplay` widget, together with theorems settling the specification
claims.

The container implementation itself (`container.go`) is not present in the
sources; only its test suite (`container/container_test.go`) is.  Definitions
for the layout engine are therefore modelled from the specification
(sections 3, 4.2, 4.3, 8 and 9) and validated against the literal scenarios of
the test suite.  The `segmentdisplay` widget is embedded directly from
`widgets/segmentdisplay/segmentdisplay.go`.
-/

/-- Integer half-open rectangle `[minX, maxX) x [minY, maxY)` in cell
coordinates, mirroring Go's `image.Rectangle` as described in spec section 3. -/
structure Rect where
  minX : Int
  minY : Int
  maxX : Int
  maxY : Int
deriving DecidableEq, Repr

/-- Width of a rectangle (`Dx` in Go). -/
def Rect.width (r : Rect) : Int := r.maxX - r.minX

/-- Height of a rectangle (`Dy` in Go). -/
def Rect.height (r : Rect) : Int := r.maxY - r.minY

/-- Cell membership in a rectangle. -/
def Rect.mem (r : Rect) (x y : Int) : Prop :=
  r.minX ≤ x ∧ x < r.maxX ∧ r.minY ≤ y ∧ y < r.maxY

instance (r : Rect) (x y : Int) : Decidable (r.mem x y) := by
  unfold Rect.mem; infer_instance

/-- Modelled from the spec: Split Policy, section 4.2.  Horizontal split of
rectangle `r` at ratio `p`: childA (Top) receives `floor(height * p)` rows,
childB (Bottom) receives the remainder. -/
def splitH (r : Rect) (p : ℚ) : Rect × Rect :=
  let hA : Int := ⌊p * (r.height : ℚ)⌋
  (⟨r.minX, r.minY, r.maxX, r.minY + hA⟩,
   ⟨r.minX, r.minY + hA, r.maxX, r.maxY⟩)

/-- Modelled from the spec: Split Policy, section 4.2.  Vertical split of
rectangle `r` at ratio `p`: childA (Left) receives `floor(width * p)` columns,
childB (Right) receives the remainder. -/
def splitV (r : Rect) (p : ℚ) : Rect × Rect :=
  let wA : Int := ⌊p * (r.width : ℚ)⌋
  (⟨r.minX, r.minY, r.minX + wA, r.maxY⟩,
   ⟨r.minX + wA, r.minY, r.maxX, r.maxY⟩)

/-- Horizontal split at the default ratio 0.5 as the layout engine computes it:
the first child receives `height / 2` rows (integer division, i.e. the floor
share for the non-negative heights occurring during layout). -/
def halfH (r : Rect) : Rect × Rect :=
  let hA : Int := r.height / 2
  (⟨r.minX, r.minY, r.maxX, r.minY + hA⟩,
   ⟨r.minX, r.minY + hA, r.maxX, r.maxY⟩)

/-- Vertical split at the default ratio 0.5 as the layout engine computes it. -/
def halfV (r : Rect) : Rect × Rect :=
  let wA : Int := r.width / 2
  (⟨r.minX, r.minY, r.minX + wA, r.maxY⟩,
   ⟨r.minX + wA, r.minY, r.maxX, r.maxY⟩)

/-- The executable engine split agrees with the Split Policy at the default
ratio 0.5. -/
theorem splitH_half (r : Rect) : splitH r (1/2) = halfH r := by
  have h : ⌊(1/2 : ℚ) * (r.height : ℚ)⌋ = r.height / 2 := by
    rw [show (1/2 : ℚ) * (r.height : ℚ) = (r.height : ℚ) / ((2 : ℕ) : ℚ) by
          push_cast; ring,
        Rat.floor_intCast_div_natCast]
    norm_num
  unfold splitH halfH
  rw [h]

/-- The executable engine split agrees with the Split Policy at the default
ratio 0.5. -/
theorem splitV_half (r : Rect) : splitV r (1/2) = halfV r := by
  have h : ⌊(1/2 : ℚ) * (r.width : ℚ)⌋ = r.width / 2 := by
    rw [show (1/2 : ℚ) * (r.width : ℚ) = (r.width : ℚ) / ((2 : ℕ) : ℚ) by
          push_cast; ring,
        Rat.floor_intCast_div_natCast]
    norm_num
  unfold splitV halfV
  rw [h]

/-- A cell write: a coordinate together with the rune placed there. -/
abbrev CellWrite := (Int × Int) × Char

/-- Modelled from the spec: box outline of the light line style, as the Border
Renderer (section 2) places it on the outer edge of a rectangle. -/
def boxWrites (r : Rect) : List CellWrite :=
  let xs := (List.range (r.width - 2).toNat).map (fun i => r.minX + 1 + i)
  let ys := (List.range (r.height - 2).toNat).map (fun i => r.minY + 1 + i)
  [((r.minX, r.minY), '┌'), ((r.maxX - 1, r.minY), '┐'),
   ((r.minX, r.maxY - 1), '└'), ((r.maxX - 1, r.maxY - 1), '┘')]
  ++ xs.map (fun x => ((x, r.minY), '─'))
  ++ xs.map (fun x => ((x, r.maxY - 1), '─'))
  ++ ys.map (fun y => ((r.minX, y), '│'))
  ++ ys.map (fun y => ((r.maxX - 1, y), '│'))

/-- Modelled from the spec, section 4.3 step 2: the border is drawn only when
both dimensions are at least 2; otherwise it is silently skipped. -/
def borderWrites (bd : Bool) (r : Rect) : List CellWrite :=
  if bd = true ∧ 2 ≤ r.width ∧ 2 ≤ r.height then boxWrites r else []

/-- Modelled from the spec, section 4.3 step 2: the interior content rectangle,
inset by one cell on every side when a border is drawn; equal to the full area
when there is no border or the area is below the 2x2 border minimum. -/
def contentRect (bd : Bool) (r : Rect) : Rect :=
  if bd = true ∧ 2 ≤ r.width ∧ 2 ≤ r.height then
    ⟨r.minX + 1, r.minY + 1, r.maxX - 1, r.maxY - 1⟩
  else r

deriving instance DecidableEq for Except

/-- Errors the layout engine can return (spec section 7): an invalid overall
terminal size, or a widget's own draw error propagated verbatim. -/
inductive Err where
  | invalidTerminalSize
  | widgetErr (msg : String)
deriving DecidableEq, Repr

/-- A leaf widget as the engine sees it (spec section 4.4): a declared minimum
size and a draw function that may fail. -/
structure Widget where
  minW : Int
  minH : Int
  draw : Rect → Except String (List CellWrite)

/-- Container tree node (spec section 3): an ephemeral assigned area, an
optional border, and exactly one payload of: nothing, a bound widget, a
horizontal split, or a vertical split.  The split-xor-widget invariant is
enforced by construction. -/
inductive CNode where
  | leaf (area : Rect) (border : Bool)
  | widg (area : Rect) (border : Bool) (w : Widget)
  | hsplit (area : Rect) (border : Bool) (top bottom : CNode)
  | vsplit (area : Rect) (border : Bool) (left right : CNode)

/-- Modelled from the spec, section 9: minimum number of cells each child of a
split must have along the split axis; the regression scenario of
`container_test.go` ("container height too low") fixes it at 3. -/
def minSplitSide : Int := 3

/-- Modelled from the spec, section 4.3: the recursive draw algorithm.  The
node is bound to rectangle `r` (recorded as its ephemeral area), borders are
drawn before recursing, and undersized regions degrade silently: a border
below 2x2 is skipped, a split whose halves are degenerate or below
`minSplitSide` along the split axis is abandoned, a widget whose content
rectangle is below its minimum is skipped.  Only a widget's own draw error is
propagated. -/
def drawAssign : CNode → Rect → Except Err (List CellWrite × CNode)
  | .leaf _ bd, r =>
    if r.width ≤ 0 ∨ r.height ≤ 0 then .ok ([], .leaf r bd)
    else .ok (borderWrites bd r, .leaf r bd)
  | .widg _ bd w, r =>
    if r.width ≤ 0 ∨ r.height ≤ 0 then .ok ([], .widg r bd w)
    else
      let c := contentRect bd r
      if w.minW ≤ c.width ∧ w.minH ≤ c.height then
        match w.draw c with
        | .ok ws => .ok (borderWrites bd r ++ ws, .widg r bd w)
        | .error s => .error (.widgetErr s)
      else .ok (borderWrites bd r, .widg r bd w)
  | .hsplit _ bd t b, r =>
    if r.width ≤ 0 ∨ r.height ≤ 0 then .ok ([], .hsplit r bd t b)
    else
      let c := contentRect bd r
      let hs := halfH c
      if minSplitSide ≤ hs.1.height ∧ minSplitSide ≤ hs.2.height ∧ 0 < hs.1.width then
        match drawAssign t hs.1 with
        | .error e => .error e
        | .ok (wt, t2) =>
          match drawAssign b hs.2 with
          | .error e => .error e
          | .ok (wb, b2) => .ok (borderWrites bd r ++ wt ++ wb, .hsplit r bd t2 b2)
      else .ok (borderWrites bd r, .hsplit r bd t b)
  | .vsplit _ bd l rt, r =>
    if r.width ≤ 0 ∨ r.height ≤ 0 then .ok ([], .vsplit r bd l rt)
    else
      let c := contentRect bd r
      let vs := halfV c
      if minSplitSide ≤ vs.1.width ∧ minSplitSide ≤ vs.2.width ∧ 0 < vs.1.height then
        match drawAssign l vs.1 with
        | .error e => .error e
        | .ok (wl, l2) =>
          match drawAssign rt vs.2 with
          | .error e => .error e
          | .ok (wr, r2) => .ok (borderWrites bd r ++ wl ++ wr, .vsplit r bd l2 r2)
      else .ok (borderWrites bd r, .vsplit r bd l rt)

/-- Modelled from the spec, section 4.3: the single entry point.  Fails with
`InvalidTerminalSize` on a non-positive terminal dimension, otherwise binds the
root to `Rectangle(0, 0, terminalSize)` and draws recursively.  Returns the
cell writes of the frame together with the tree carrying the recomputed
ephemeral areas. -/
def drawTop (c : CNode) (w h : Int) : Except Err (List CellWrite × CNode) :=
  if w ≤ 0 ∨ h ≤ 0 then .error .invalidTerminalSize
  else drawAssign c ⟨0, 0, w, h⟩

/-- The frame produced by a draw call: its cell writes only. -/
def drawWrites (c : CNode) (w h : Int) : Except Err (List CellWrite) :=
  (drawTop c w h).map Prod.fst

/-- The zero rectangle, the area a freshly constructed node carries before its
first draw. -/
def zeroRect : Rect := ⟨0, 0, 0, 0⟩

/-- The container of the regression test "container height too low": a
horizontal split into a bordered top and a bottom that is itself split
horizontally into two bordered children. -/
def lowHeightTree : CNode :=
  .hsplit zeroRect false
    (.leaf zeroRect true)
    (.hsplit zeroRect false (.leaf zeroRect true) (.leaf zeroRect true))

/-- C2: drawing a 4x7 terminal whose root is split horizontally into a
bordered top child and a bottom child itself split horizontally into two
bordered children produces exactly one box outline covering `(0,0)-(4,3)`,
nothing else on the buffer, and Draw returns no error. -/
theorem claim_C2 : drawWrites lowHeightTree 4 7 = .ok (boxWrites ⟨0, 0, 4, 3⟩) := by
  decide

/-- The container of the test "horizontal split, parent and children have
borders". -/
def borderedSplitTree : CNode :=
  .hsplit zeroRect true (.leaf zeroRect true) (.leaf zeroRect true)

/-- C4: drawing a 10x10 terminal whose root has a border and a horizontal
split into two bordered children produces exactly three box outlines: the
outer box at `(0,0)-(10,10)` and the children's boxes at `(1,1)-(9,5)` and
`(1,5)-(9,9)`, each child's box inside the parent's by exactly one cell on
each side. -/
theorem claim_C4 :
    drawWrites borderedSplitTree 10 10 =
      .ok (boxWrites ⟨0, 0, 10, 10⟩ ++ boxWrites ⟨1, 1, 9, 5⟩ ++ boxWrites ⟨1, 5, 9, 9⟩) := by
  decide

/-- The container of the test "multi level split". -/
def multiLevelTree : CNode :=
  .vsplit zeroRect false
    (.hsplit zeroRect false
      (.leaf zeroRect true)
      (.hsplit zeroRect false (.leaf zeroRect true) (.leaf zeroRect true)))
    (.leaf zeroRect true)

/-- Model validation: the "multi level split" scenario of the test suite. -/
theorem multi_level_scenario :
    drawWrites multiLevelTree 10 11 =
      .ok (boxWrites ⟨0, 0, 5, 5⟩ ++ boxWrites ⟨0, 5, 5, 8⟩ ++ boxWrites ⟨0, 8, 5, 11⟩
        ++ boxWrites ⟨5, 0, 10, 11⟩) := by
  decide

/-- Bounds on the floor share: for a ratio in `[0, 1]` and a non-negative
extent, the first child's share lies between `0` and the full extent. -/
theorem floor_scale_bounds (h : Int) (p : ℚ) (hh : 0 ≤ h) (hp0 : 0 ≤ p)
    (hp1 : p ≤ 1) : 0 ≤ ⌊p * (h : ℚ)⌋ ∧ ⌊p * (h : ℚ)⌋ ≤ h := by
  constructor
  · exact Int.floor_nonneg.mpr (mul_nonneg hp0 (by exact_mod_cast hh))
  · calc ⌊p * (h : ℚ)⌋ ≤ ⌊(h : ℚ)⌋ := by
          apply Int.floor_le_floor
          calc p * (h : ℚ) ≤ 1 * (h : ℚ) :=
                mul_le_mul_of_nonneg_right hp1 (by exact_mod_cast hh)
            _ = (h : ℚ) := one_mul _
    _ = h := Int.floor_intCast h

/-- The two halves of a horizontal split partition the parent's cells. -/
theorem splitH_mem (r : Rect) (p : ℚ) (x y : Int) (hy : r.minY ≤ r.maxY)
    (hp0 : 0 ≤ p) (hp1 : p ≤ 1) :
    (((splitH r p).1.mem x y ∨ (splitH r p).2.mem x y) ↔ r.mem x y) ∧
      ¬((splitH r p).1.mem x y ∧ (splitH r p).2.mem x y) := by
  obtain ⟨h0, h1⟩ := floor_scale_bounds r.height p
    (by unfold Rect.height; omega) hp0 hp1
  have hdef : r.height = r.maxY - r.minY := rfl
  unfold splitH Rect.mem
  simp only
  omega

/-- The two halves of a vertical split partition the parent's cells. -/
theorem splitV_mem (r : Rect) (p : ℚ) (x y : Int) (hx : r.minX ≤ r.maxX)
    (hp0 : 0 ≤ p) (hp1 : p ≤ 1) :
    (((splitV r p).1.mem x y ∨ (splitV r p).2.mem x y) ↔ r.mem x y) ∧
      ¬((splitV r p).1.mem x y ∧ (splitV r p).2.mem x y) := by
  obtain ⟨h0, h1⟩ := floor_scale_bounds r.width p
    (by unfold Rect.width; omega) hp0 hp1
  have hdef : r.width = r.maxX - r.minX := rfl
  unfold splitV Rect.mem
  simp only
  omega

/-- C3: for every rectangle, split axis and ratio `p` in `[0, 1]`, the Split
Policy partitions the rectangle exactly: the first child's extent along the
split axis is `floor(extent * p)` and the second child receives the remainder,
so the extents sum to the parent's with no gap and no overlap on cells; at the
default ratio 0.5, the first child (Top/Left) receives the floor share, one
cell less than the second on an odd extent. -/
theorem claim_C3 (r : Rect) (p : ℚ) (x y : Int)
    (hx : r.minX ≤ r.maxX) (hy : r.minY ≤ r.maxY) (hp0 : 0 ≤ p) (hp1 : p ≤ 1) :
    ((splitH r p).1.height = ⌊p * (r.height : ℚ)⌋
      ∧ (splitH r p).1.height + (splitH r p).2.height = r.height
      ∧ (((splitH r p).1.mem x y ∨ (splitH r p).2.mem x y) ↔ r.mem x y)
      ∧ ¬((splitH r p).1.mem x y ∧ (splitH r p).2.mem x y))
    ∧ ((splitV r p).1.width = ⌊p * (r.width : ℚ)⌋
      ∧ (splitV r p).1.width + (splitV r p).2.width = r.width
      ∧ (((splitV r p).1.mem x y ∨ (splitV r p).2.mem x y) ↔ r.mem x y)
      ∧ ¬((splitV r p).1.mem x y ∧ (splitV r p).2.mem x y))
    ∧ ((splitH r (1/2)).1.height = r.height / 2
      ∧ (r.height % 2 = 1 → (splitH r (1/2)).2.height = (splitH r (1/2)).1.height + 1)
      ∧ (splitV r (1/2)).1.width = r.width / 2
      ∧ (r.width % 2 = 1 → (splitV r (1/2)).2.width = (splitV r (1/2)).1.width + 1)) := by
  refine ⟨⟨?_, ?_, (splitH_mem r p x y hy hp0 hp1).1, (splitH_mem r p x y hy hp0 hp1).2⟩,
    ⟨?_, ?_, (splitV_mem r p x y hx hp0 hp1).1, (splitV_mem r p x y hx hp0 hp1).2⟩,
    ?_, ?_, ?_, ?_⟩
  · unfold splitH Rect.height; simp only; ring
  · unfold splitH Rect.height; simp only; ring
  · unfold splitV Rect.width; simp only; ring
  · unfold splitV Rect.width; simp only; ring
  · rw [splitH_half]; unfold halfH Rect.height; simp only; ring
  · rw [splitH_half]; unfold halfH Rect.height; simp only; omega
  · rw [splitV_half]; unfold halfV Rect.width; simp only; ring
  · rw [splitV_half]; unfold halfV Rect.width; simp only; omega

/-- Witness for C3 at a concrete rectangle, ratio and cell. -/
theorem claim_C3_witness :
    ((0 : Int) ≤ 3 ∧ (3 : Int) ≤ 7 ∧ (0 : ℚ) ≤ 1/2 ∧ (1/2 : ℚ) ≤ 1) ∧
    ((splitH ⟨0, 3, 4, 7⟩ (1/2)).1.height = ⌊(1/2 : ℚ) * ((4 : Int) : ℚ)⌋
      ∧ (splitH ⟨0, 3, 4, 7⟩ (1/2)).1.height + (splitH ⟨0, 3, 4, 7⟩ (1/2)).2.height = (4 : Int)) := by
  have h := claim_C3 ⟨0, 3, 4, 7⟩ (1/2) 1 4 (by norm_num) (by norm_num)
    (by norm_num) (by norm_num)
  refine ⟨⟨by norm_num, by norm_num, by norm_num, by norm_num⟩, ?_, ?_⟩
  · exact h.1.1
  · exact h.1.2.1

/-- The bottom subtree of the 4x7 regression scenario: an unbordered node split
horizontally into two bordered leaves. -/
def bottomSplit : CNode :=
  .hsplit zeroRect false (.leaf zeroRect true) (.leaf zeroRect true)

/-- C1 counterexample: at the rectangle `(0,3)-(4,7)` both computed halves of
the split have positive width and height (4x2 each), yet the engine abandons
the split and draws nothing, although recursing into the first child at its
half-rectangle would draw a non-empty box; so "split skipped exactly when a
half is degenerate" fails on the code (as evidenced by the regression test
"container height too low"). -/
theorem claim_C1_cex :
    (0 < (splitH ⟨0, 3, 4, 7⟩ (1/2)).1.width ∧ 0 < (splitH ⟨0, 3, 4, 7⟩ (1/2)).1.height
      ∧ 0 < (splitH ⟨0, 3, 4, 7⟩ (1/2)).2.width ∧ 0 < (splitH ⟨0, 3, 4, 7⟩ (1/2)).2.height)
    ∧ (drawAssign bottomSplit ⟨0, 3, 4, 7⟩).map Prod.fst = .ok []
    ∧ (drawAssign (.leaf zeroRect true) (splitH ⟨0, 3, 4, 7⟩ (1/2)).1).map Prod.fst
        = .ok (boxWrites ⟨0, 3, 4, 5⟩)
    ∧ boxWrites ⟨0, 3, 4, 5⟩ ≠ [] := by
  simp only [splitH_half]
  decide

/-- C1 (amended): for a split node with a non-degenerate assigned area, the
split is skipped (nothing drawn beyond any border, children untouched) exactly
when a computed half has fewer than `minSplitSide` (3) cells along the split
axis or a degenerate cross dimension; whenever both halves have at least 3
cells along the split axis and a positive cross dimension, Draw recurses into
both children with their respective rectangles. -/
theorem claim_C1_amended (a0 : Rect) (bd : Bool) (ca cb : CNode) (r : Rect)
    (hw : 0 < r.width) (hh : 0 < r.height) :
    ((¬(minSplitSide ≤ (splitH (contentRect bd r) (1/2)).1.height
        ∧ minSplitSide ≤ (splitH (contentRect bd r) (1/2)).2.height
        ∧ 0 < (splitH (contentRect bd r) (1/2)).1.width) →
      drawAssign (.hsplit a0 bd ca cb) r = .ok (borderWrites bd r, .hsplit r bd ca cb))
    ∧ ((minSplitSide ≤ (splitH (contentRect bd r) (1/2)).1.height
        ∧ minSplitSide ≤ (splitH (contentRect bd r) (1/2)).2.height
        ∧ 0 < (splitH (contentRect bd r) (1/2)).1.width) →
      drawAssign (.hsplit a0 bd ca cb) r =
        (drawAssign ca (splitH (contentRect bd r) (1/2)).1).bind (fun pa =>
          (drawAssign cb (splitH (contentRect bd r) (1/2)).2).map (fun pb =>
            (borderWrites bd r ++ pa.1 ++ pb.1, .hsplit r bd pa.2 pb.2)))))
    ∧ ((¬(minSplitSide ≤ (splitV (contentRect bd r) (1/2)).1.width
        ∧ minSplitSide ≤ (splitV (contentRect bd r) (1/2)).2.width
        ∧ 0 < (splitV (contentRect bd r) (1/2)).1.height) →
      drawAssign (.vsplit a0 bd ca cb) r = .ok (borderWrites bd r, .vsplit r bd ca cb))
    ∧ ((minSplitSide ≤ (splitV (contentRect bd r) (1/2)).1.width
        ∧ minSplitSide ≤ (splitV (contentRect bd r) (1/2)).2.width
        ∧ 0 < (splitV (contentRect bd r) (1/2)).1.height) →
      drawAssign (.vsplit a0 bd ca cb) r =
        (drawAssign ca (splitV (contentRect bd r) (1/2)).1).bind (fun pa =>
          (drawAssign cb (splitV (contentRect bd r) (1/2)).2).map (fun pb =>
            (borderWrites bd r ++ pa.1 ++ pb.1, .vsplit r bd pa.2 pb.2))))) := by
  simp only [splitH_half, splitV_half]
  have hnd : ¬(r.width ≤ 0 ∨ r.height ≤ 0) := by omega
  refine ⟨⟨?_, ?_⟩, ?_, ?_⟩
  · intro hgate
    simp only [drawAssign]
    rw [if_neg hnd, if_neg hgate]
  · intro hgate
    simp only [drawAssign]
    rw [if_neg hnd, if_pos hgate]
    cases drawAssign ca (halfH (contentRect bd r)).1 with
    | error e => simp [Except.bind, Except.map]
    | ok pa =>
      cases drawAssign cb (halfH (contentRect bd r)).2 with
      | error e => simp [Except.bind, Except.map]
      | ok pb => simp [Except.bind, Except.map]
  · intro hgate
    simp only [drawAssign]
    rw [if_neg hnd, if_neg hgate]
  · intro hgate
    simp only [drawAssign]
    rw [if_neg hnd, if_pos hgate]
    cases drawAssign ca (halfV (contentRect bd r)).1 with
    | error e => simp [Except.bind, Except.map]
    | ok pa =>
      cases drawAssign cb (halfV (contentRect bd r)).2 with
      | error e => simp [Except.bind, Except.map]
      | ok pb => simp [Except.bind, Except.map]

/-- Witness for the amended C1 at the bottom node of the 4x7 scenario: the
gate fails there, so the node degrades to a leaf. -/
theorem claim_C1_amended_witness :
    drawAssign (.hsplit zeroRect false (.leaf zeroRect true) (.leaf zeroRect true)) ⟨0, 3, 4, 7⟩
      = .ok (borderWrites false ⟨0, 3, 4, 7⟩,
          .hsplit ⟨0, 3, 4, 7⟩ false (.leaf zeroRect true) (.leaf zeroRect true)) :=
  (claim_C1_amended zeroRect false (.leaf zeroRect true) (.leaf zeroRect true) ⟨0, 3, 4, 7⟩
      (by decide) (by decide)).1.1
    (by simp only [splitH_half]; decide)

/-- C6: for every stored area and every terminal size with both dimensions at
least 1, drawing a single node with no border, no split and no widget leaves
the buffer blank and returns no error. -/
theorem claim_C6 (a : Rect) (w h : Int) (hw : 1 ≤ w) (hh : 1 ≤ h) :
    drawWrites (.leaf a false) w h = .ok [] := by
  unfold drawWrites drawTop
  rw [if_neg (by omega : ¬(w ≤ 0 ∨ h ≤ 0))]
  simp only [drawAssign]
  split
  · rfl
  · simp [borderWrites, Except.map]

/-- Witness for C6 at a concrete area and terminal size. -/
theorem claim_C6_witness : drawWrites (.leaf zeroRect false) 1 1 = .ok [] :=
  claim_C6 zeroRect 1 1 (by norm_num) (by norm_num)

/-- Strings that some widget in the tree can produce as its own draw error. -/
def hasErrStr : CNode → String → Prop
  | .leaf _ _, _ => False
  | .widg _ _ w, s => ∃ a, w.draw a = .error s
  | .hsplit _ _ t b, s => hasErrStr t s ∨ hasErrStr b s
  | .vsplit _ _ l rt, s => hasErrStr l s ∨ hasErrStr rt s

/-- Every error of the recursive draw comes verbatim from some widget's own
draw call. -/
theorem drawAssign_error (c : CNode) : ∀ (r : Rect) (e : Err),
    drawAssign c r = .error e → ∃ s, e = .widgetErr s ∧ hasErrStr c s := by
  induction c with
  | leaf a bd =>
    intro r e h
    simp only [drawAssign] at h
    split at h <;> simp at h
  | widg a bd w =>
    intro r e h
    simp only [drawAssign] at h
    split at h
    · simp at h
    · split at h
      · cases hd : w.draw (contentRect bd r) with
        | ok ws => rw [hd] at h; simp at h
        | error s =>
          rw [hd] at h
          simp only [Except.error.injEq] at h
          exact ⟨s, h.symm, contentRect bd r, hd⟩
      · simp at h
  | hsplit a bd t b iht ihb =>
    intro r e h
    simp only [drawAssign] at h
    split at h
    · simp at h
    · split at h
      · cases ht : drawAssign t (halfH (contentRect bd r)).1 with
        | error e1 =>
          rw [ht] at h
          simp only [Except.error.injEq] at h
          obtain ⟨s, hs, hstr⟩ := iht _ e1 ht
          exact ⟨s, by rw [← h, hs], Or.inl hstr⟩
        | ok pt =>
          rw [ht] at h
          simp only at h
          cases hb : drawAssign b (halfH (contentRect bd r)).2 with
          | error e2 =>
            rw [hb] at h
            simp only [Except.error.injEq] at h
            obtain ⟨s, hs, hstr⟩ := ihb _ e2 hb
            exact ⟨s, by rw [← h, hs], Or.inr hstr⟩
          | ok pb => rw [hb] at h; simp at h
      · simp at h
  | vsplit a bd l rt ihl ihr =>
    intro r e h
    simp only [drawAssign] at h
    split at h
    · simp at h
    · split at h
      · cases hl : drawAssign l (halfV (contentRect bd r)).1 with
        | error e1 =>
          rw [hl] at h
          simp only [Except.error.injEq] at h
          obtain ⟨s, hs, hstr⟩ := ihl _ e1 hl
          exact ⟨s, by rw [← h, hs], Or.inl hstr⟩
        | ok pl =>
          rw [hl] at h
          simp only at h
          cases hr : drawAssign rt (halfV (contentRect bd r)).2 with
          | error e2 =>
            rw [hr] at h
            simp only [Except.error.injEq] at h
            obtain ⟨s, hs, hstr⟩ := ihr _ e2 hr
            exact ⟨s, by rw [← h, hs], Or.inr hstr⟩
          | ok pr => rw [hr] at h; simp at h
      · simp at h

/-- C5: for every container tree and every terminal size of at least 1x1, a
draw error is always a widget's own draw failure, propagated unmodified; the
undersized-region degradations never produce an error. -/
theorem claim_C5 (c : CNode) (w h : Int) (hw : 1 ≤ w) (hh : 1 ≤ h) (e : Err)
    (he : drawTop c w h = .error e) : ∃ s, e = .widgetErr s ∧ hasErrStr c s := by
  unfold drawTop at he
  rw [if_neg (by omega : ¬(w ≤ 0 ∨ h ≤ 0))] at he
  exact drawAssign_error c _ e he

/-- A widget whose draw always fails with the message "boom". -/
def failWidget : Widget := ⟨1, 1, fun _ => .error "boom"⟩

/-- A tree binding `failWidget` at an unbordered root. -/
def failTree : CNode := .widg zeroRect false failWidget

/-- Witness for C5: on a 5x5 terminal the failing widget's error surfaces as
the widget error "boom", which indeed originates from a widget of the tree. -/
theorem claim_C5_witness :
    ∃ s, Err.widgetErr "boom" = Err.widgetErr s ∧ hasErrStr failTree s :=
  claim_C5 failTree 5 5 (by norm_num) (by norm_num) (Err.widgetErr "boom") (by rfl)

/-- Redrawing the tree produced by a successful draw at the same rectangle
reproduces the same writes and the same tree: the recorded areas are
recomputed from scratch and never influence the output. -/
theorem drawAssign_stable (c : CNode) : ∀ (r : Rect) (b : List CellWrite) (c2 : CNode),
    drawAssign c r = .ok (b, c2) → drawAssign c2 r = .ok (b, c2) := by
  induction c with
  | leaf a bd =>
    intro r b c2 h
    simp only [drawAssign] at h
    split at h <;>
      (simp only [Except.ok.injEq, Prod.mk.injEq] at h
       obtain ⟨hb, hc2⟩ := h
       subst hb; subst hc2
       simp only [drawAssign]) <;> split <;> first | rfl | omega
  | widg a bd w =>
    intro r b c2 h
    simp only [drawAssign] at h
    split at h
    case isTrue hdeg =>
      simp only [Except.ok.injEq, Prod.mk.injEq] at h
      obtain ⟨hb, hc2⟩ := h
      subst hb; subst hc2
      simp only [drawAssign]
      rw [if_pos hdeg]
    case isFalse hdeg =>
      split at h
      case isTrue hmin =>
        cases hd : w.draw (contentRect bd r) with
        | ok ws =>
          rw [hd] at h
          simp only [Except.ok.injEq, Prod.mk.injEq] at h
          obtain ⟨hb, hc2⟩ := h
          subst hb; subst hc2
          simp only [drawAssign]
          rw [if_neg hdeg, if_pos hmin, hd]
        | error s => rw [hd] at h; simp at h
      case isFalse hmin =>
        simp only [Except.ok.injEq, Prod.mk.injEq] at h
        obtain ⟨hb, hc2⟩ := h
        subst hb; subst hc2
        simp only [drawAssign]
        rw [if_neg hdeg, if_neg hmin]
  | hsplit a bd t bt iht ihb =>
    intro r b c2 h
    simp only [drawAssign] at h
    split at h
    case isTrue hdeg =>
      simp only [Except.ok.injEq, Prod.mk.injEq] at h
      obtain ⟨hb, hc2⟩ := h
      subst hb; subst hc2
      simp only [drawAssign]
      rw [if_pos hdeg]
    case isFalse hdeg =>
      split at h
      case isTrue hgate =>
        cases ht : drawAssign t (halfH (contentRect bd r)).1 with
        | error e => rw [ht] at h; simp at h
        | ok pt =>
          rw [ht] at h
          simp only at h
          cases hbd : drawAssign bt (halfH (contentRect bd r)).2 with
          | error e => rw [hbd] at h; simp at h
          | ok pb =>
            rw [hbd] at h
            simp only [Except.ok.injEq, Prod.mk.injEq] at h
            obtain ⟨hb, hc2⟩ := h
            subst hb; subst hc2
            simp only [drawAssign]
            rw [if_neg hdeg, if_pos hgate,
              iht _ pt.1 pt.2 (by rw [ht]),
              ihb _ pb.1 pb.2 (by rw [hbd])]
      case isFalse hgate =>
        simp only [Except.ok.injEq, Prod.mk.injEq] at h
        obtain ⟨hb, hc2⟩ := h
        subst hb; subst hc2
        simp only [drawAssign]
        rw [if_neg hdeg, if_neg hgate]
  | vsplit a bd l rt ihl ihr =>
    intro r b c2 h
    simp only [drawAssign] at h
    split at h
    case isTrue hdeg =>
      simp only [Except.ok.injEq, Prod.mk.injEq] at h
      obtain ⟨hb, hc2⟩ := h
      subst hb; subst hc2
      simp only [drawAssign]
      rw [if_pos hdeg]
    case isFalse hdeg =>
      split at h
      case isTrue hgate =>
        cases hl : drawAssign l (halfV (contentRect bd r)).1 with
        | error e => rw [hl] at h; simp at h
        | ok pl =>
          rw [hl] at h
          simp only at h
          cases hrd : drawAssign rt (halfV (contentRect bd r)).2 with
          | error e => rw [hrd] at h; simp at h
          | ok pr =>
            rw [hrd] at h
            simp only [Except.ok.injEq, Prod.mk.injEq] at h
            obtain ⟨hb, hc2⟩ := h
            subst hb; subst hc2
            simp only [drawAssign]
            rw [if_neg hdeg, if_pos hgate,
              ihl _ pl.1 pl.2 (by rw [hl]),
              ihr _ pr.1 pr.2 (by rw [hrd])]
      case isFalse hgate =>
        simp only [Except.ok.injEq, Prod.mk.injEq] at h
        obtain ⟨hb, hc2⟩ := h
        subst hb; subst hc2
        simp only [drawAssign]
        rw [if_neg hdeg, if_neg hgate]

/-- C7: drawing twice at the same terminal size with no reconfiguration in
between yields identical buffer contents (and an identical tree): Draw is
idempotent and no mutable layout state leaks between frames. -/
theorem claim_C7 (c : CNode) (w h : Int) (b : List CellWrite) (c2 : CNode)
    (hdraw : drawTop c w h = .ok (b, c2)) : drawTop c2 w h = .ok (b, c2) := by
  unfold drawTop at hdraw ⊢
  by_cases hc : w ≤ 0 ∨ h ≤ 0
  · rw [if_pos hc] at hdraw; simp at hdraw
  · rw [if_neg hc] at hdraw
    rw [if_neg hc]
    exact drawAssign_stable c _ b c2 hdraw

/-- The 4x7 regression tree as it stands after its first draw, areas
assigned. -/
def lowHeightAssigned : CNode :=
  .hsplit ⟨0, 0, 4, 7⟩ false (.leaf ⟨0, 0, 4, 3⟩ true)
    (.hsplit ⟨0, 3, 4, 7⟩ false (.leaf zeroRect true) (.leaf zeroRect true))

/-- Witness for C7: redrawing the already-drawn 4x7 regression tree yields the
same frame and the same tree. -/
theorem claim_C7_witness :
    drawTop lowHeightAssigned 4 7 = .ok (boxWrites ⟨0, 0, 4, 3⟩, lowHeightAssigned) :=
  claim_C7 lowHeightTree 4 7 (boxWrites ⟨0, 0, 4, 3⟩) lowHeightAssigned (by rfl)

/-- Model validation: the "container with a border" scenario of the test
suite. -/
theorem border_scenario :
    drawWrites (.leaf zeroRect true) 10 10 = .ok (boxWrites ⟨0, 0, 10, 10⟩) := by
  decide

/-- Model validation: the "vertical split, children have borders" scenario of
the test suite. -/
theorem vsplit_scenario :
    drawWrites (.vsplit zeroRect false (.leaf zeroRect true) (.leaf zeroRect true)) 10 10 =
      .ok (boxWrites ⟨0, 0, 5, 10⟩ ++ boxWrites ⟨5, 0, 10, 10⟩) := by
  decide

/-- Model validation: the "vertical split, parent and children have borders"
scenario of the test suite. -/
theorem bordered_vsplit_scenario :
    drawWrites (.vsplit zeroRect true (.leaf zeroRect true) (.leaf zeroRect true)) 10 10 =
      .ok (boxWrites ⟨0, 0, 10, 10⟩ ++ boxWrites ⟨1, 1, 5, 9⟩ ++ boxWrites ⟨5, 1, 9, 9⟩) := by
  decide

/-- Keyboard event (terminalapi.Keyboard); its contents are irrelevant to the
claims. -/
structure KeyboardEvent where
  key : Int

/-- Mouse event (terminalapi.Mouse); its contents are irrelevant to the
claims. -/
structure MouseEvent where
  x : Int
  y : Int

/-- Modelled from the spec: the keyboard routing interest a widget declares
(widgetapi.KeyScope, absent from src). -/
inductive KeyScope where
  | keyScopeNone
  | keyScopeFocused
  | keyScopeGlobal
deriving DecidableEq, Repr

/-- Modelled from the spec: the mouse routing interest a widget declares
(widgetapi.MouseScope, absent from src). -/
inductive MouseScope where
  | mouseScopeNone
  | mouseScopeWidget
  | mouseScopeGlobal
deriving DecidableEq, Repr

/-- Options a widget declares to the engine (widgetapi.Options): minimum size
and the keyboard/mouse routing interests. -/
structure WidgetOptions where
  minimumSize : Int × Int
  wantKeyboard : KeyScope
  wantMouse : MouseScope
deriving DecidableEq, Repr

/-- Modelled from the spec: the smallest supported size of a single display
segment (sixteen.MinCols, absent from src). -/
def sixteenMinCols : Int := 6

/-- Modelled from the spec: the smallest supported size of a single display
segment (sixteen.MinRows, absent from src). -/
def sixteenMinRows : Int := 5

/-- SegmentDisplay.Keyboard (segmentdisplay.go lines 246-249): keyboard input
is not supported and every event yields an error. -/
def sdKeyboard (k : KeyboardEvent) : Except String Unit :=
  .error "the SegmentDisplay widget doesn\x27t support keyboard events"

/-- SegmentDisplay.Mouse (segmentdisplay.go lines 251-254): mouse input is not
supported and every event yields an error. -/
def sdMouse (m : MouseEvent) : Except String Unit :=
  .error "the SegmentDisplay widget doesn\x27t support mouse events"

/-- SegmentDisplay.Options (segmentdisplay.go lines 256-264): the minimum
segment size and no keyboard or mouse routing. -/
def sdOptions : WidgetOptions :=
  ⟨(sixteenMinCols, sixteenMinRows), .keyScopeNone, .mouseScopeNone⟩

/-- C8: the SegmentDisplay widget declines keyboard and mouse routing in its
declared options, and its Keyboard and Mouse methods return a non-nil
"unsupported" error for every event. -/
theorem claim_C8 :
    sdOptions.wantKeyboard = KeyScope.keyScopeNone
    ∧ sdOptions.wantMouse = MouseScope.mouseScopeNone
    ∧ (∀ k : KeyboardEvent,
        sdKeyboard k = .error "the SegmentDisplay widget doesn\x27t support keyboard events")
    ∧ (∀ m : MouseEvent,
        sdMouse m = .error "the SegmentDisplay widget doesn\x27t support mouse events")
    ∧ ("the SegmentDisplay widget doesn\x27t support keyboard events" : String) ≠ ""
    ∧ ("the SegmentDisplay widget doesn\x27t support mouse events" : String) ≠ "" :=
  ⟨rfl, rfl, fun _ => rfl, fun _ => rfl, by decide, by decide⟩

/-- Write options of a text chunk (segmentdisplay.go `writeOptions`): whether
unsupported characters are an error.  Cell styling options are irrelevant to
the claims and omitted. -/
structure WriteOpts where
  errOnUnsupported : Bool
deriving DecidableEq, Repr

/-- A part of the text to display (segmentdisplay.go `TextChunk`). -/
structure TextChunk where
  text : String
  wOpts : WriteOpts
deriving DecidableEq, Repr

/-- Mutable state of a SegmentDisplay (segmentdisplay.go lines 44-58): the
text buffer, the write options given so far, and the tracker of the buffer
positions they apply to. -/
structure SDState where
  buff : String
  givenWOpts : List WriteOpts
  wOptsTracker : List (Nat × Nat × Nat)
deriving DecidableEq, Repr

/-- Error outcomes of SegmentDisplay.Write (segmentdisplay.go lines 101-135):
an empty chunk list, a chunk with empty text, a chunk with unsupported
characters while the error option is set, or a rejected tracker range. -/
inductive SDErr where
  | emptyChunks
  | emptyChunk (i : Nat)
  | unsupportedChunk (i : Nat)
  | trackerErr
deriving DecidableEq, Repr

/-- Modelled from the spec: the character support test and the sanitisation of
the sixteen-segment package (sixteen.SupportsChars and sixteen.Sanitize,
absent from src).  Write's control flow is uniform in them, so they are kept
as parameters. -/
structure Sixteen where
  supportsChars : String → Bool
  sanitize : String → String

/-- Modelled from the spec: attrrange.Tracker.Add (absent from src) records a
half-open position range for the write options at the given index, rejecting
an empty range. -/
def trackerAdd (tr : List (Nat × Nat × Nat)) (low high idx : Nat) :
    Except SDErr (List (Nat × Nat × Nat)) :=
  if high ≤ low then .error .trackerErr else .ok (tr ++ [(low, high, idx)])

/-- SegmentDisplay.reset (segmentdisplay.go lines 144-150): clears the buffer,
the given write options and the tracker. -/
def sdReset (st : SDState) : SDState := ⟨"", [], []⟩

/-- A freshly constructed SegmentDisplay (segmentdisplay.go New, lines 61-73):
empty buffer, no write options, fresh tracker. -/
def sdNew : SDState := ⟨"", [], []⟩

/-- The chunk loop of SegmentDisplay.Write (segmentdisplay.go lines 117-133):
each chunk is validated, its sanitized text appended and its write options
recorded; on failure the error is returned together with the state as already
mutated at that point. -/
def writeChunks (six : Sixteen) : Nat → List TextChunk → SDState → Option SDErr × SDState
  | _, [], st => (none, st)
  | i, tc :: rest, st =>
    if tc.text = "" then (some (.emptyChunk i), st)
    else if six.supportsChars tc.text = false ∧ tc.wOpts.errOnUnsupported = true then
      (some (.unsupportedChunk i), st)
    else
      let text := six.sanitize tc.text
      let gw := st.givenWOpts ++ [tc.wOpts]
      match trackerAdd st.wOptsTracker st.buff.length (st.buff.length + text.length)
          (gw.length - 1) with
      | .error e => (some e, st)
      | .ok tr => writeChunks six (i + 1) rest ⟨st.buff ++ text, gw, tr⟩

/-- SegmentDisplay.Write (segmentdisplay.go lines 101-135): an empty chunk
list is an error before any mutation; otherwise the previous content is reset
first and the chunks are processed in order.  The per-call display options of
the Go signature are not modelled: their implementation (options.go) is absent
from src and no claim involves them. -/
def sdWrite (six : Sixteen) (st : SDState) (chunks : List TextChunk) :
    Option SDErr × SDState :=
  if chunks = [] then (some .emptyChunks, st)
  else writeChunks six 0 chunks (sdReset st)

/-- SegmentDisplay.Draw (segmentdisplay.go lines 177-244): with an empty
buffer it returns immediately, writing nothing.  The non-empty branch depends
on the preprocessing, alignment and sixteen-segment machinery absent from src
and is therefore a parameter. -/
def sdDraw (rest : SDState → Rect → Except String (List CellWrite))
    (st : SDState) (cvs : Rect) : Except String (List CellWrite) :=
  if st.buff = "" then .ok [] else rest st cvs

/-- The sanitized text a Write call leaves in the buffer: the concatenation of
the sanitized texts of the chunks before the first failing one (a chunk fails
when its text is empty, when it has unsupported characters with the error
option set, or when its sanitized text is empty so the tracker rejects the
range). -/
def processedText (six : Sixteen) : List TextChunk → String
  | [] => ""
  | tc :: rest =>
    if tc.text = "" then ""
    else if six.supportsChars tc.text = false ∧ tc.wOpts.errOnUnsupported = true then ""
    else if (six.sanitize tc.text).length = 0 then ""
    else six.sanitize tc.text ++ processedText six rest

/-- The buffer after the chunk loop is the incoming buffer extended by the
processed text of the chunks. -/
theorem writeChunks_buff (six : Sixteen) :
    ∀ (cs : List TextChunk) (i : Nat) (st : SDState),
    (writeChunks six i cs st).2.buff = st.buff ++ processedText six cs := by
  intro cs
  induction cs with
  | nil => intro i st; simp [writeChunks, processedText]
  | cons tc rest ih =>
    intro i st
    simp only [writeChunks, processedText, trackerAdd]
    by_cases h1 : tc.text = ""
    · rw [if_pos h1, if_pos h1]
      simp
    · rw [if_neg h1, if_neg h1]
      by_cases h2 : six.supportsChars tc.text = false ∧ tc.wOpts.errOnUnsupported = true
      · rw [if_pos h2, if_pos h2]
        simp
      · rw [if_neg h2, if_neg h2]
        by_cases h3 : (six.sanitize tc.text).length = 0
        · rw [if_pos (by omega :
              st.buff.length + (six.sanitize tc.text).length ≤ st.buff.length)]
          rw [if_pos h3]
          simp
        · rw [if_neg (by omega :
              ¬(st.buff.length + (six.sanitize tc.text).length ≤ st.buff.length))]
          rw [if_neg h3]
          simp only
          rw [ih]
          simp only
          rw [String.append_assoc]

/-- A sixteen model that supports everything and sanitizes nothing, for the
concrete scenarios. -/
def idSixteen : Sixteen := ⟨fun _ => true, fun t => t⟩

/-- A widget state holding previously written content "A". -/
def priorState : SDState := ⟨"A", [⟨false⟩], [(0, 1, 0)]⟩

/-- A chunk list whose second chunk has empty text. -/
def cexChunks : List TextChunk := [⟨"B", ⟨false⟩⟩, ⟨"", ⟨false⟩⟩]

/-- C9 counterexample: writing the chunks `["B", ""]` over previous content
"A" returns the empty-chunk error, but the widget is left holding "B" — the
prior content was cleared, yet the widget is not left empty as the claim
states. -/
theorem claim_C9_cex :
    (sdWrite idSixteen priorState cexChunks).1 = some (SDErr.emptyChunk 1)
    ∧ (sdWrite idSixteen priorState cexChunks).2.buff = "B"
    ∧ ("B" : String) ≠ "" := by
  refine ⟨by decide, by decide, by decide⟩

/-- C9 (amended): Write is atomic only for the empty-list error — with zero
chunks it errors and leaves the state untouched; with a non-empty chunk list
the previously written content is always cleared first, and the buffer is left
holding exactly the sanitized text of the chunks preceding the first failing
one (empty when the first chunk fails), never the prior text. -/
theorem claim_C9_amended (six : Sixteen) (st : SDState) (chunks : List TextChunk)
    (hne : chunks ≠ []) :
    sdWrite six st [] = (some SDErr.emptyChunks, st)
    ∧ (sdWrite six st chunks).2.buff = processedText six chunks := by
  constructor
  · rfl
  · unfold sdWrite
    rw [if_neg hne, writeChunks_buff]
    simp [sdReset]

/-- Witness for the amended C9 at the counterexample's concrete input. -/
theorem claim_C9_amended_witness :
    sdWrite idSixteen priorState [] = (some SDErr.emptyChunks, priorState)
    ∧ (sdWrite idSixteen priorState cexChunks).2.buff = processedText idSixteen cexChunks :=
  claim_C9_amended idSixteen priorState cexChunks (by decide)

/-- C10: for every canvas, drawing a SegmentDisplay whose buffer is empty — in
particular one freshly constructed by New or cleared by Reset — returns no
error and writes nothing. -/
theorem claim_C10 (rest : SDState → Rect → Except String (List CellWrite))
    (st st2 : SDState) (cvs : Rect) (hempty : st.buff = "") :
    sdDraw rest st cvs = .ok []
    ∧ sdDraw rest sdNew cvs = .ok []
    ∧ sdDraw rest (sdReset st2) cvs = .ok [] := by
  refine ⟨?_, ?_, ?_⟩
  · unfold sdDraw
    rw [if_pos hempty]
  · unfold sdDraw
    rw [if_pos (show sdNew.buff = "" from rfl)]
  · unfold sdDraw
    rw [if_pos (show (sdReset st2).buff = "" from rfl)]

/-- A non-empty-branch implementation that would fail if ever invoked. -/
def failRest : SDState → Rect → Except String (List CellWrite) := fun _ _ => .error "x"

/-- Witness for C10: with an always-failing non-empty branch, drawing a fresh
widget and a reset widget still writes nothing and returns no error. -/
theorem claim_C10_witness :
    sdDraw failRest sdNew zeroRect = .ok []
    ∧ sdDraw failRest sdNew zeroRect = .ok []
    ∧ sdDraw failRest (sdReset priorState) zeroRect = .ok [] :=
  claim_C10 failRest sdNew priorState zeroRect rfl
